import Mathlib

/-!
Shallow embedding of the voter_turnout document-gathering pipeline
(source: src/app.py) and proofs of the specification claims.

Python exceptions are modelled with `Except PyExn`; external collaborators
(the HTTP client, the PDF library, textract, the generative model) are
modelled as environment records whose fields return `Except PyExn` values,
so that every control path of the Python source (normal return, caught
exception, propagated exception) has an explicit counterpart.
-/

namespace VoterTurnout

/-- Python exception values that can arise in the modelled code paths. -/
inductive PyExn where
  | typeError
  | keyError
  | attributeError
  | connectionError
  | jsonDecodeError
  | ioError
  | authError
  | modelError
  | valueError (msg : String)
  deriving DecidableEq, Repr

/-- Minimal JSON value model for the search provider's response bodies. -/
inductive Json where
  | str (s : String)
  | num (n : Int)
  | obj (fields : List (String × Json))
  | arr (elems : List Json)
  | null
  deriving Repr

/-- Association-list lookup, modelling Python dict key lookup
(response JSON objects; keys are unique in a parsed JSON object,
so first-match lookup is faithful). -/
def jlookup (fields : List (String × Json)) (key : String) : Option Json :=
  (fields.find? (fun kv => kv.1 == key)).map (fun kv => kv.2)

/-- Python `data.get(key, default)`: only dict-like values support `.get`;
calling it on a list/str/number raises `AttributeError`. -/
def pyDictGet (j : Json) (key : String) (dflt : Json) : Except PyExn Json :=
  match j with
  | .obj fields => .ok ((jlookup fields key).getD dflt)
  | _ => .error .attributeError

/-- Python `item[key]` subscription on a JSON value: a dict without the key
raises `KeyError`; subscripting a non-dict with a string raises `TypeError`. -/
def pySubscript (j : Json) (key : String) : Except PyExn Json :=
  match j with
  | .obj fields =>
    match jlookup fields key with
    | some v => .ok v
    | none => .error .keyError
  | _ => .error .typeError

/-- Python iteration (`for item in x`) over a JSON value: lists yield their
elements, strings yield one-character strings, dicts yield their keys,
numbers and null raise `TypeError`. -/
def pyIterate (j : Json) : Except PyExn (List Json) :=
  match j with
  | .arr elems => .ok elems
  | .str s => .ok (s.data.map (fun c => .str (String.mk [c])))
  | .obj fields => .ok (fields.map (fun kv => .str kv.1))
  | _ => .error .typeError

/-- Whether an `Except` value is a normal return (no exception propagated). -/
def exceptOk {ε α : Type} : Except ε α → Bool
  | .ok _ => true
  | .error _ => false

/-- Splitting a character list on a single separator character, modelling
Python `s.split(sep)` for a one-character separator: `""` splits to `[""]`,
and adjacent separators produce empty fields. -/
def splitOnChar (sep : Char) : List Char → List (List Char)
  | [] => [[]]
  | c :: rest =>
    let r := splitOnChar sep rest
    if c = sep then [] :: r
    else (c :: r.headD []) :: r.tail

/-- A hexadecimal digit in upper case, as used by `urllib.parse.quote`. -/
def hexDigit (n : Nat) : String :=
  String.mk [(if n < 10 then Char.ofNat (48 + n) else Char.ofNat (55 + n))]

/-- Percent-encoding of one byte, upper-case hex (`urllib.parse.quote`). -/
def percentByte (b : Nat) : String :=
  "%" ++ hexDigit (b / 16 % 16) ++ hexDigit (b % 16)

/-- One character of `urllib.parse.quote_plus`: the always-safe characters
(ASCII letters, digits, and the characters in the set underscore, dot,
hyphen, tilde) pass through, a space becomes a plus, and every other
character is percent-encoded byte by byte from its UTF-8 encoding
(`quote_plus` is `quote` with an empty `safe` set plus the space rule). -/
def quotePlusChar (c : Char) : String :=
  if c.isAlphanum ∨ c = '_' ∨ c = '.' ∨ c = '-' ∨ c = '~' then String.mk [c]
  else if c = ' ' then "+"
  else String.join (((String.mk [c]).toUTF8.toList).map (fun b => percentByte b.toNat))

/-- Model of `urllib.parse.quote_plus` (src/app.py imports it as `quote_plus`). -/
def quote_plus (s : String) : String :=
  String.join (s.data.map quotePlusChar)

/-! ### SearchClient: `find_urls` and `find_documents` (src/app.py lines 27-54, 87-116) -/

/-- The `st.secrets` values used to build the request URL. -/
structure Secrets where
  access : String
  custom : String

/-- A `requests` response: the only method the source calls on it is
`.json()`, which raises if the body is not JSON. -/
structure Response where
  jsonBody : Except PyExn Json

/-- The HTTP collaborator: `requests.get` either returns a response or
raises (connection error, timeout, ...). The source never calls
`raise_for_status`, so an HTTP error status still yields a response. -/
structure Http where
  get : String → Except PyExn Response

/-- The append loop `for item in data.get('items', []): links.append(item['link'])`
from `find_urls` and `find_documents`: the first item without a `link` key
raises `KeyError`, aborting the whole call (the partial list is discarded
because the exception propagates out of the function). -/
def collectLinks : List Json → Except PyExn (List Json)
  | [] => .ok []
  | item :: rest => do
    let link ← pySubscript item "link"
    let links ← collectLinks rest
    .ok (link :: links)

/-- Model of `find_urls(query, cx, num_results)` (src/app.py lines 27-54).
Note the source ignores the `cx` parameter and uses `st.secrets["custom"]`
in the URL; there is no try/except anywhere in the function. -/
def find_urls (http : Http) (secrets : Secrets) (query : String) (cx : String)
    (num_results : Nat) : Except PyExn (List Json) := do
  let q := quote_plus query
  let url := "https://www.googleapis.com/customsearch/v1?key=" ++ secrets.access
      ++ "&cx=" ++ secrets.custom ++ "&q=" ++ q ++ "&num=" ++ toString num_results
  let response ← http.get url
  let data ← response.jsonBody
  let itemsJ ← pyDictGet data "items" (.arr [])
  let items ← pyIterate itemsJ
  collectLinks items

/-- Model of `find_documents(topic, query, cx, filetypes, num_results)`
(src/app.py lines 87-116): builds the `filetype:a OR filetype:b` query,
then performs the same unprotected request/parse/append sequence. -/
def find_documents (http : Http) (secrets : Secrets) (topic query cx : String)
    (filetypes : List String) (num_results : Nat) : Except PyExn (List Json) := do
  let filetype_query := String.intercalate " OR " (filetypes.map (fun ft => "filetype:" ++ ft))
  let search := quote_plus (topic ++ " " ++ query ++ " (" ++ filetype_query ++ ")")
  let url := "https://www.googleapis.com/customsearch/v1?key=" ++ secrets.access
      ++ "&cx=" ++ secrets.custom ++ "&q=" ++ search ++ "&num=" ++ toString num_results
  let response ← http.get url
  let data ← response.jsonBody
  let itemsJ ← pyDictGet data "items" (.arr [])
  let items ← pyIterate itemsJ
  collectLinks items

/-! ### UrlNormalizer: `generalize_url` (src/app.py lines 57-84),
with a model of the parts of `urllib.parse.urlparse` the source reads
(`scheme` and `netloc`), restricted to ASCII input. -/

/-- Characters allowed in a URL scheme by `urllib.parse`
(ASCII letters, digits, plus, hyphen, dot). -/
def isSchemeChar (c : Char) : Bool :=
  c.isAlphanum || c = '+' || c = '-' || c = '.'

/-- The scheme-splitting step of `urllib.parse.urlsplit`: if the string has a
colon at position `i > 0`, the first character is an ASCII letter, and every
character before the colon is a scheme character, the scheme is the lowered
text before the colon and the rest follows it; otherwise the scheme is empty
and the rest is the whole string. -/
def splitScheme (url : String) : String × String :=
  let cs := url.data
  match cs.findIdx? (fun c => c = ':') with
  | none => ("", url)
  | some i =>
    if 0 < i ∧ (cs.headD ' ').isAlpha = true ∧ (cs.take i).all isSchemeChar = true then
      (String.mk ((cs.take i).map Char.toLower), String.mk (cs.drop (i + 1)))
    else ("", url)

/-- The netloc-splitting step of `urllib.parse.urlsplit`: when the remainder
after the scheme starts with two slashes, the netloc runs up to the next
slash, question mark, or hash; otherwise it is empty. -/
def splitNetloc (rest : String) : String :=
  let cs := rest.data
  if cs.take 2 = ['/', '/'] then
    String.mk ((cs.drop 2).takeWhile (fun c => c != '/' && c != '?' && c != '#'))
  else ""

/-- The expression `'.'.join(x.split('.')[-2:])` from `generalize_url`:
the last two dot-separated labels joined back with a dot (the whole string
when it has fewer than two labels). -/
def lastTwoLabels (s : String) : String :=
  let labels := (splitOnChar '.' s.data).map String.mk
  String.intercalate "." (labels.drop (labels.length - 2))

/-- Model of `generalize_url(url)` (src/app.py lines 57-84): parse the URL,
raise `ValueError("Invalid URL")` unless both the scheme and the netloc are
non-empty, and otherwise return the last two dot-separated labels of the
netloc. The source reads `parsed_url.netloc`, which is the full network
location including any userinfo and port, not the bare host. -/
def generalize_url (url : String) : Except PyExn String :=
  let parsed := splitScheme url
  let netloc := splitNetloc parsed.2
  if parsed.1 ≠ "" ∧ netloc ≠ "" then
    .ok (lastTwoLabels netloc)
  else
    .error (.valueError "Invalid URL")

/-- Spec-side definition (for comparison only, following the spec's words
"the last two dot-separated labels of the host"): the host of a network
location in the sense of `urllib`'s `hostname` is what remains after
stripping the userinfo before the last at-sign and the port after the first
following colon. Case-folding of the host is irrelevant to the claims and
is omitted. -/
def hostOfNetloc (netloc : String) : String :=
  let afterAt := (splitOnChar '@' netloc.data).getLastD []
  String.mk ((splitOnChar ':' afterAt).headD [])

/-! ### ContentExtractor: `read_pdf` and `process_file` (src/app.py lines 119-166) -/

/-- The argument of `process_file`: the docstring says it "accepts path
strings, bytes, and byte buffers". -/
inductive PyFile where
  | path (s : String)
  | bytes (b : List Nat)

/-- External collaborators of the extractor. `openPdf` models
`pdfium.PdfDocument` together with the per-page `get_textpage` and
`get_text_bounded` calls of `read_pdf` (the list of page texts, or a raised
exception for a corrupt document). `textractProcess` models
`textract.process` (raw bytes, or a raised exception). `decodeIgnore`
models `bytes.decode('utf_8', errors="ignore")`, which is total: with
`errors="ignore"` undecodable byte sequences are dropped, never raised on. -/
structure ExtractEnv where
  openPdf : String → Except PyExn (List String)
  textractProcess : String → Except PyExn (List Nat)
  decodeIgnore : List Nat → String

/-- Model of `read_pdf(file)` (src/app.py lines 119-140): open the PDF and
concatenate every page's bounded text behind a leading newline. -/
def read_pdf (env : ExtractEnv) (file : String) : Except PyExn String :=
  match env.openPdf file with
  | .error e => .error e
  | .ok pages => .ok (pages.foldl (fun text t => text ++ "\n" ++ t) "")

/-- The index of the last dot in a name, modelling Python `name.rfind('.')`
restricted to a found result. -/
def rfindDot (cs : List Char) : Option Nat :=
  match cs.reverse.findIdx? (fun c => c = '.') with
  | some j => some (cs.length - 1 - j)
  | none => none

/-- Model of `pathlib.Path(s).suffix`: the name is the last non-empty
slash-separated component, and the suffix is the text from the last dot of
the name when that dot is neither the first nor the last character of the
name, else the empty string. -/
def pathSuffix (s : String) : String :=
  let name := ((splitOnChar '/' s.data).filter (fun comp => comp ≠ [])).getLastD []
  match rfindDot name with
  | some i => if 0 < i ∧ i < name.length - 1 then String.mk (name.drop i) else ""
  | none => ""

/-- The extensions `process_file` delegates to textract. -/
def textractExts : List String :=
  [".docx", ".csv", ".epub", ".json", ".html", ".odt", ".pptx", ".txt", ".rtf"]

/-- Model of `process_file(file)` (src/app.py lines 143-166). The first
statement, `file_name = pathlib.Path(file)`, runs BEFORE the try block and
raises `TypeError` when `file` is a bytes object (pathlib rejects bytes).
Inside the try, a `.pdf` suffix dispatches to `read_pdf`, a textract-known
suffix dispatches to `textract.process(...).decode('utf_8', errors="ignore")`,
any exception is swallowed by the bare `except: pass`, and every remaining
path falls off the end of the function, returning Python `None`
(modelled as `Option.none`). -/
def process_file (env : ExtractEnv) (file : PyFile) : Except PyExn (Option String) :=
  match file with
  | .bytes _ => .error .typeError
  | .path s =>
    if pathSuffix s = ".pdf" then
      match read_pdf env s with
      | .ok t => .ok (some t)
      | .error _ => .ok none
    else if pathSuffix s ∈ textractExts then
      match env.textractProcess s with
      | .ok bs => .ok (some (env.decodeIgnore bs))
      | .error _ => .ok none
    else
      .ok none

/-! ### GatheringPipeline: `process_file_questions` (src/app.py lines 169-205) -/

/-- The working area (`temp` directory) as observable state: whether the
directory exists and which file basenames have been written into it. -/
structure TempState where
  present : Bool
  files : List String
  deriving DecidableEq, Repr

/-- Model of `shutil.rmtree(path, ignore_errors=True)`: the directory and
its contents are gone afterwards, and no exception escapes. -/
def rmtree (_ : TempState) : TempState :=
  { present := false, files := [] }

/-- Model of `os.makedirs('temp', exist_ok=True)`: the directory exists
afterwards; existing contents are kept (no merge happens in the source
because `rmtree` always runs first). -/
def makedirs (st : TempState) : TempState :=
  { st with present := true }

/-- Model of `os.path.basename(url)`: the text after the last slash. -/
def basename (p : String) : String :=
  String.mk ((splitOnChar '/' p.data).getLastD [])

/-- The observable outcome of the body of the per-URL try block for one URL:
either some statement raised (`requests.get`, the file write, or
`pdf_answerer` — whose initialization can raise, see `pdf_answerer` below),
with `fileWritten` recording whether the write had already happened, or the
whole body succeeded with the summary string returned by `pdf_answerer`
(possibly empty, since `pdf_answerer` converts post-initialization failures
to the empty string). -/
inductive UrlOutcome where
  | fail (fileWritten : Bool)
  | success (summary : String)

/-- Whether the try-block body for a URL ran to completion. -/
def UrlOutcome.isSuccess : UrlOutcome → Bool
  | .success _ => true
  | .fail _ => false

/-- The summary appended for a URL, when its try-block body succeeded. -/
def UrlOutcome.summaryOpt : UrlOutcome → Option String
  | .success s => some s
  | .fail _ => none

/-- The per-URL loop of `process_file_questions` (src/app.py lines 191-203):
each iteration runs the body under `try`, and the bare `except:` catches
every exception, so a failed URL only prints a message and contributes
nothing; a successful URL appends its filename to the working area and the
pair (url, summary) to the two output lists. -/
def pfqLoop (env : String → String → UrlOutcome) (question : String) :
    List String → TempState → TempState × List String × List String
  | [], st => (st, [], [])
  | url :: rest, st =>
    match env question url with
    | .fail written =>
      pfqLoop env question rest
        (if written then { st with files := st.files ++ [basename url] } else st)
    | .success summary =>
      let r := pfqLoop env question rest { st with files := st.files ++ [basename url] }
      (r.1, url :: r.2.1, summary :: r.2.2)

/-- Model of `process_file_questions(urls, question)` (src/app.py lines
169-205): remove any pre-existing working area, recreate it, run the
per-URL loop, remove the working area again, and return the two lists. -/
def process_file_questions (env : String → String → UrlOutcome) (urls : List String)
    (question : String) (st0 : TempState) : (List String × List String) × TempState :=
  let st1 := makedirs (rmtree st0)
  let r := pfqLoop env question urls st1
  ((r.2.1, r.2.2), rmtree r.1)

/-! ### PdfPageExtractor: `numbers_split` and `split_pdf` (src/app.py lines 208-253) -/

/-- Model of `re.split(r'\D+', s)` on a character list: the fields between
maximal runs of non-digit characters, including an empty leading field when
the string starts with a non-digit and an empty trailing field when it ends
with one (so `re.split` on a string with no digits yields two empty fields,
and on the empty string one). -/
def splitNonDigits : List Char → List (List Char)
  | [] => [[]]
  | c :: rest =>
    let r := splitNonDigits rest
    if c.isDigit then (c :: r.headD []) :: r.tail
    else
      match rest with
      | [] => [[], []]
      | c2 :: _ => if c2.isDigit then [] :: r else r

/-- Model of Python `str.isdigit()` on a token (ASCII digits): non-empty and
all digits. -/
def pyIsDigit (tok : List Char) : Bool :=
  tok ≠ [] && tok.all Char.isDigit

/-- Model of Python `int(part)` on an all-digit token: decimal value. -/
def parseDecimal (tok : List Char) : Nat :=
  tok.foldl (fun a c => a * 10 + (c.toNat - 48)) 0

/-- Model of `numbers_split(s)` (src/app.py lines 208-228): split on runs of
non-digits, keep the tokens `isdigit` accepts, parse to integers, drop the
zeros, and decrement what remains. -/
def numbers_split (s : String) : List Nat :=
  ((((splitNonDigits s.data).filter pyIsDigit).map parseDecimal).filter
    (fun n => n != 0)).map (fun n => n - 1)

/-- Spec-side definition (for comparison only, following the spec's words):
the maximal runs of digit characters of a string, extracted directly with no
empty-field bookkeeping — the "purely numeric tokens" of the spec's
description of `parsePageSpec`. -/
def digitRuns : List Char → List (List Char)
  | [] => []
  | c :: rest =>
    let rs := digitRuns rest
    if c.isDigit then
      match rest with
      | [] => [[c]]
      | c2 :: _ => if c2.isDigit then (c :: rs.headD []) :: rs.tail else [c] :: rs
    else rs

/-- Spec-side definition of `parsePageSpec` (for comparison only, following
the spec's words): take the purely numeric tokens, parse them as integers,
drop every value equal to zero, and decrement each remaining value by one. -/
def parsePageSpecSpec (s : String) : List Nat :=
  ((digitRuns s.data).map parseDecimal |>.filter (fun n => n != 0)).map (fun n => n - 1)

/-- Model of `split_pdf(input_pdf_path, output_pdf_path, page_numbers)`
(src/app.py lines 231-253). A PDF document is modelled as the list of its
pages. The source filters the requested page numbers to `0 <= page < len(pdf)`
with a list comprehension (order-preserving), then `import_pages(pdf,
page_numbers, 0)` copies exactly those pages, in the given order, into the
fresh empty document at position 0. The returned pair is (the filtered page
numbers, the pages of the new document); the save step is not modelled. -/
def split_pdf {α : Type} (sourcePages : List α) (page_numbers : List Int) :
    List Int × List α :=
  let len_pdf : Int := (sourcePages.length : Int)
  let kept := page_numbers.filter (fun page => decide (0 ≤ page ∧ page < len_pdf))
  (kept, kept.filterMap (fun page => sourcePages[page.toNat]?))

/-! ### DocumentAnswerer: `pdf_answerer` (src/app.py lines 282-303) -/

/-- External collaborators of the answerer. `init` models `vertexai.init`
(which can raise, e.g. on unresolvable credentials); `readBytes` models
`pathlib.Path(pdf_location).read_bytes()`; `generate` models building the
`Part`, constructing the `GenerativeModel`, and the `generate_content` call
with its `.text` accessor (any of which can raise: quota, malformed
document, model error). -/
structure AnswerEnv where
  init : Except PyExn Unit
  readBytes : String → Except PyExn (List Nat)
  generate : List Nat → String → Except PyExn String

/-- Model of `pdf_answerer(question, pdf_location, project_id)` (src/app.py
lines 282-303). The call `vertexai.init(...)` is the first statement and
stands OUTSIDE the try block, so an exception it raises propagates to the
caller; everything after it is inside `try`, and the bare `except:` turns
any of its failures into the empty string. -/
def pdf_answerer (env : AnswerEnv) (question : String) (pdf_location : String) :
    Except PyExn String :=
  match env.init with
  | .error e => .error e
  | .ok _ =>
    match env.readBytes pdf_location with
    | .error _ => .ok ""
    | .ok bs =>
      match env.generate bs question with
      | .error _ => .ok ""
      | .ok t => .ok t

/-! ### Concrete environments used by closed counterexample and witness theorems -/

/-- An HTTP environment whose every request raises a connection error. -/
def httpDown : Http :=
  { get := fun _ => .error .connectionError }

/-- An HTTP environment answering every request with a fixed JSON object. -/
def httpConst (fields : List (String × Json)) : Http :=
  { get := fun _ => .ok { jsonBody := .ok (.obj fields) } }

/-- Concrete secrets for evaluating the search functions. -/
def secrets0 : Secrets := { access := "k", custom := "c" }

/-- An extractor environment whose collaborators always raise. -/
def extractFailEnv : ExtractEnv :=
  { openPdf := fun _ => .error .ioError
    textractProcess := fun _ => .error .ioError
    decodeIgnore := fun _ => "" }

/-- An answerer environment whose initialization raises an auth error. -/
def answerInitFailEnv : AnswerEnv :=
  { init := .error .authError
    readBytes := fun _ => .ok []
    generate := fun _ _ => .ok "" }

/-- An answerer environment that initializes but whose document read raises. -/
def answerReadFailEnv : AnswerEnv :=
  { init := .ok ()
    readBytes := fun _ => .error .ioError
    generate := fun _ _ => .ok "" }

/-- A pipeline environment mirroring the spec's end-to-end scenario: the
first URL succeeds with the answer "Turnout: 54%", every other URL fails. -/
def envDemo : String → String → UrlOutcome := fun _ url =>
  if url = "https://example.com/a.pdf" then .success "Turnout: 54%" else .fail false

/-! ## Helper lemmas -/

/-- A `filterMap` whose function is defined on every element behaves like a
`map`: the length is preserved and the i-th output is the image of the i-th
input. -/
theorem filterMap_of_forall_isSome {α β : Type} (f : α → Option β) :
    ∀ l : List α, (∀ a ∈ l, (f a).isSome) →
      (l.filterMap f).length = l.length ∧ ∀ i : Nat, (l.filterMap f)[i]? = (l[i]?).bind f := by
  intro l
  induction l with
  | nil => exact fun _ => ⟨rfl, fun i => by simp⟩
  | cons a l ih =>
    intro h
    obtain ⟨b, hb⟩ := Option.isSome_iff_exists.mp (h a (List.mem_cons_self a l))
    obtain ⟨ihlen, ihget⟩ := ih (fun x hx => h x (List.mem_cons_of_mem a hx))
    rw [List.filterMap_cons_some hb]
    refine ⟨by simp [ihlen], fun i => ?_⟩
    cases i with
    | zero => simp [hb]
    | succ j => simpa using ihget j

/-- The two output lists of the per-URL loop are the successful URLs, in
input order, and their summaries. -/
theorem pfqLoop_links_eq (env : String → String → UrlOutcome) (question : String) :
    ∀ (urls : List String) (st : TempState),
      (pfqLoop env question urls st).2.1
        = urls.filter (fun u => (env question u).isSuccess) := by
  intro urls
  induction urls with
  | nil => intro st; rfl
  | cons url rest ih =>
    intro st
    simp only [pfqLoop, List.filter_cons]
    cases h : env question url with
    | fail written => simp [UrlOutcome.isSuccess, ih]
    | success summary => simp [UrlOutcome.isSuccess, ih]

/-- Each output URL of the per-URL loop is index-aligned with the summary
produced for it. -/
theorem pfqLoop_align (env : String → String → UrlOutcome) (question : String) :
    ∀ (urls : List String) (st : TempState),
      List.Forall₂ (fun u s => env question u = .success s)
        (pfqLoop env question urls st).2.1 (pfqLoop env question urls st).2.2 := by
  intro urls
  induction urls with
  | nil => intro st; exact List.Forall₂.nil
  | cons url rest ih =>
    intro st
    simp only [pfqLoop]
    cases h : env question url with
    | fail written => exact ih _
    | success summary => exact List.Forall₂.cons h (ih _)

/-- The field list produced by splitting on non-digit runs is never empty. -/
theorem splitNonDigits_ne_nil : ∀ cs : List Char, splitNonDigits cs ≠ [] := by
  intro cs
  induction cs with
  | nil => simp [splitNonDigits]
  | cons c rest ih =>
    simp only [splitNonDigits]
    by_cases hd : c.isDigit
    · simp [hd]
    · simp only [hd]
      cases rest with
      | nil => simp
      | cons c2 t =>
        by_cases h2 : c2.isDigit
        · simp [h2]
        · simp only [h2, if_neg, Bool.false_eq_true, ite_false]
          exact ih

/-- The first field produced by splitting on non-digit runs is the leading
run of digits. -/
theorem splitNonDigits_headD (cs : List Char) :
    (splitNonDigits cs).headD [] = cs.takeWhile Char.isDigit := by
  induction cs with
  | nil => rfl
  | cons c rest ih =>
    rw [List.takeWhile_cons]
    simp only [splitNonDigits]
    by_cases hd : c.isDigit
    · simp only [hd, ite_true, List.headD_cons]
      rw [ih]
    · simp only [hd, Bool.false_eq_true, ite_false]
      cases rest with
      | nil => rfl
      | cons c2 t =>
        by_cases h2 : c2.isDigit
        · simp [h2]
        · simp only [h2, Bool.false_eq_true, ite_false]
          rw [ih, List.takeWhile_cons]
          simp [h2]

/-- Filtering the non-digit-run split down to the fields `isdigit` accepts
yields exactly the maximal digit runs of the string: the splitting step of
`numbers_split` agrees with the spec's "keep tokens that are purely
numeric" reading. -/
theorem filter_splitNonDigits (cs : List Char) :
    (splitNonDigits cs).filter pyIsDigit = digitRuns cs := by
  induction cs with
  | nil => rfl
  | cons c rest ih =>
    by_cases hd : c.isDigit
    · rcases hr : splitNonDigits rest with _ | ⟨h0, t0⟩
      · exact absurd hr (splitNonDigits_ne_nil rest)
      have hh0 : h0 = rest.takeWhile Char.isDigit := by
        have hhead := splitNonDigits_headD rest
        rw [hr] at hhead
        simpa using hhead
      have hall : h0.all Char.isDigit = true := by
        rw [hh0]; exact List.all_takeWhile
      have hP : pyIsDigit (c :: h0) = true := by
        simp [pyIsDigit, hd, hall]
      simp only [splitNonDigits, hd, ite_true, hr, List.headD_cons, List.tail_cons,
        List.filter_cons, hP]
      cases rest with
      | nil =>
        simp only [splitNonDigits] at hr
        injection hr with h1 h2
        subst h1
        subst h2
        simp [digitRuns, hd]
      | cons c2 t =>
        have heq : List.filter pyIsDigit (h0 :: t0) = digitRuns (c2 :: t) := by
          rw [← ih, hr]
        by_cases h2 : c2.isDigit
        · have hne : h0 ≠ [] := by
            rw [hh0, List.takeWhile_cons]
            simp [h2]
          have hPh0 : pyIsDigit h0 = true := by
            simp [pyIsDigit, hne, hall]
          rw [List.filter_cons, hPh0] at heq
          simp only [ite_true] at heq
          simp only [digitRuns, hd, h2, ite_true] at heq ⊢
          rw [← heq]
          simp
        · have h0nil : h0 = [] := by
            rw [hh0, List.takeWhile_cons]
            simp [h2]
          subst h0nil
          have hPe : pyIsDigit ([] : List Char) = false := rfl
          rw [List.filter_cons, hPe] at heq
          simp only [Bool.false_eq_true, ite_false] at heq
          simp only [digitRuns, hd, h2, ite_true, Bool.false_eq_true, ite_false] at heq ⊢
          rw [heq]
    · simp only [splitNonDigits, digitRuns, hd, Bool.false_eq_true, ite_false]
      cases rest with
      | nil => rfl
      | cons c2 t =>
        by_cases h2 : c2.isDigit
        · simp only [h2, ite_true, List.filter_cons]
          have hPe : pyIsDigit ([] : List Char) = false := rfl
          rw [hPe]
          simp only [Bool.false_eq_true, ite_false]
          rw [ih]
        · simp only [h2, Bool.false_eq_true, ite_false]
          rw [ih]

/-- Splitting on a character that never occurs yields the whole string as
the single field. -/
theorem splitOnChar_eq_self (sep : Char) :
    ∀ cs : List Char, (∀ c ∈ cs, c ≠ sep) → splitOnChar sep cs = [cs] := by
  intro cs
  induction cs with
  | nil => intro _; rfl
  | cons c rest ih =>
    intro h
    have hc : ¬(c = sep) := h c (List.mem_cons_self c rest)
    simp only [splitOnChar, if_neg hc]
    rw [ih (fun x hx => h x (List.mem_cons_of_mem c hx))]
    rfl

/-- Rebuilding a string from its character list gives the string back. -/
theorem string_mk_data (s : String) : String.mk s.data = s := rfl

/-- When every item has a `link` field, the append loop of the search
functions succeeds and returns the links, index-aligned with the items. -/
theorem collectLinks_ok :
    ∀ items : List Json, (∀ i ∈ items, ∃ v, pySubscript i "link" = .ok v) →
      ∃ links, collectLinks items = .ok links
        ∧ List.Forall₂ (fun i v => pySubscript i "link" = .ok v) items links := by
  intro items
  induction items with
  | nil => exact fun _ => ⟨[], rfl, List.Forall₂.nil⟩
  | cons i rest ih =>
    intro h
    obtain ⟨v, hv⟩ := h i (List.mem_cons_self i rest)
    obtain ⟨links, hl, hf⟩ := ih (fun j hj => h j (List.mem_cons_of_mem i hj))
    refine ⟨v :: links, ?_, List.Forall₂.cons hv hf⟩
    simp only [collectLinks, hv, hl]
    rfl

/-- When some item lacks a `link` field, the append loop raises `KeyError`
(nothing is skipped; the whole call fails). -/
theorem collectLinks_keyError (post : List Json) (bad : Json)
    (hbad : pySubscript bad "link" = .error .keyError) :
    ∀ pre : List Json, (∀ i ∈ pre, ∃ v, pySubscript i "link" = .ok v) →
      collectLinks (pre ++ bad :: post) = .error .keyError := by
  intro pre
  induction pre with
  | nil =>
    intro _
    simp only [List.nil_append, collectLinks, hbad]
    rfl
  | cons i rest ih =>
    intro h
    obtain ⟨v, hv⟩ := h i (List.mem_cons_self i rest)
    have hr := ih (fun j hj => h j (List.mem_cons_of_mem i hj))
    simp only [List.cons_append, collectLinks, hv, List.append_eq, hr]
    rfl

/-! ## Claim theorems -/

/-- C5: For every page-spec string s, `numbers_split` splits s on runs of
non-digit characters, keeps the purely numeric tokens, parses them as
integers, drops every value equal to zero, and decrements each remaining
value by one; in particular the three documented evaluations hold. -/
theorem numbers_split_follows_spec :
    numbers_split "1, 2, 3, 4" = [0, 1, 2, 3]
    ∧ numbers_split "a1b2c3" = [0, 1, 2]
    ∧ numbers_split "no numbers here" = []
    ∧ ∀ s : String, numbers_split s = parsePageSpecSpec s := by
  refine ⟨by decide, by decide, by decide, fun s => ?_⟩
  simp only [numbers_split, parsePageSpecSpec, filter_splitNonDigits]

/-- C7: The working area is created fresh at the start of every pipeline run
(whatever existed at its location before is removed, not merged into), and
it is removed again before the run returns, for every environment — that
is, on every exit path of the loop, since the per-URL `try`/bare-`except`
confines every failure to its own iteration. -/
theorem workdir_fresh_and_always_removed (env : String → String → UrlOutcome)
    (urls : List String) (question : String) (st0 : TempState) :
    makedirs (rmtree st0) = { present := true, files := [] }
    ∧ (process_file_questions env urls question st0).2
        = { present := false, files := [] } := by
  refine ⟨rfl, ?_⟩
  simp only [process_file_questions, rmtree]

/-- C1: The per-document loop of the pipeline isolates failures: a URL whose
fetch or processing raises contributes neither a URL nor an answer, the two
returned sequences have equal length and are index-aligned, and the
returned URL list is an order-preserving subsequence of the input URL list,
hence no longer than it. -/
theorem pipeline_isolates_failures (env : String → String → UrlOutcome)
    (urls : List String) (question : String) (st0 : TempState) :
    (process_file_questions env urls question st0).1.1.length
        = (process_file_questions env urls question st0).1.2.length
    ∧ (process_file_questions env urls question st0).1.1.Sublist urls
    ∧ (process_file_questions env urls question st0).1.1.length ≤ urls.length
    ∧ List.Forall₂ (fun u s => env question u = .success s)
        (process_file_questions env urls question st0).1.1
        (process_file_questions env urls question st0).1.2
    ∧ ∀ u, (env question u).isSuccess = false →
        u ∉ (process_file_questions env urls question st0).1.1 := by
  have hfst : (process_file_questions env urls question st0).1.1
      = (pfqLoop env question urls (makedirs (rmtree st0))).2.1 := rfl
  have hsnd : (process_file_questions env urls question st0).1.2
      = (pfqLoop env question urls (makedirs (rmtree st0))).2.2 := rfl
  have hl := pfqLoop_links_eq env question urls (makedirs (rmtree st0))
  have ha := pfqLoop_align env question urls (makedirs (rmtree st0))
  rw [hfst, hsnd]
  have hsub : (pfqLoop env question urls (makedirs (rmtree st0))).2.1.Sublist urls := by
    rw [hl]; exact List.filter_sublist urls
  refine ⟨ha.length_eq, hsub, hsub.length_le, ha, ?_⟩
  intro u hu hmem
  rw [hl] at hmem
  have := (List.mem_filter.mp hmem).2
  rw [hu] at this
  exact Bool.false_ne_true this

/-- C1 witness: on the spec's end-to-end scenario (first URL succeeds,
second fails), the returned URL list is a subsequence of the input list. -/
theorem pipeline_isolates_failures_witness :
    (process_file_questions envDemo
        ["https://example.com/a.pdf", "https://bad.example/missing.pdf"]
        "What is the voter turnout?" { present := false, files := [] }).1.1.Sublist
      ["https://example.com/a.pdf", "https://bad.example/missing.pdf"] :=
  (pipeline_isolates_failures envDemo
    ["https://example.com/a.pdf", "https://bad.example/missing.pdf"]
    "What is the voter turnout?" { present := false, files := [] }).2.1

/-- C2: The claim that extraction never propagates an exception for any
input (bytes or path) fails on the code: `pathlib.Path(file)` is evaluated
before the try block and raises `TypeError` on a bytes input, contradicting
the function's own docstring ("accepts path strings, bytes, and byte
buffers"). For path inputs the containment does hold: every path input
produces a normal return. -/
theorem process_file_raises_on_bytes_but_total_on_paths :
    process_file extractFailEnv (.bytes [37, 80, 68, 70]) = .error .typeError
    ∧ ∀ (env : ExtractEnv) (s : String), ∃ r, process_file env (.path s) = .ok r := by
  refine ⟨rfl, fun env s => ?_⟩
  simp only [process_file]
  by_cases h1 : pathSuffix s = ".pdf"
  · rw [if_pos h1]
    cases read_pdf env s with
    | ok t => exact ⟨some t, rfl⟩
    | error e => exact ⟨none, rfl⟩
  · rw [if_neg h1]
    by_cases h2 : pathSuffix s ∈ textractExts
    · rw [if_pos h2]
      cases env.textractProcess s with
      | ok bs => exact ⟨some (env.decodeIgnore bs), rfl⟩
      | error e => exact ⟨none, rfl⟩
    · rw [if_neg h2]
      exact ⟨none, rfl⟩

/-- C3 counterexample: an exception raised by `vertexai.init` — the first
statement of `pdf_answerer`, which stands outside the try block — is NOT
converted to an empty string; it propagates past the answerer boundary
(here, an authentication failure during initialization). -/
theorem pdf_answerer_propagates_init_failure :
    pdf_answerer answerInitFailEnv "What is the voter turnout?" "temp/report.pdf"
        = .error .authError
    ∧ exceptOk (pdf_answerer answerInitFailEnv "What is the voter turnout?" "temp/report.pdf")
        = false :=
  ⟨rfl, rfl⟩

/-- C3 amended: once `vertexai.init` has succeeded, every failure of the
answerer (document read, packaging, model call) is caught and converted to
the empty string, and no exception escapes; but a failure of the
initialization call itself propagates to the caller. -/
theorem pdf_answerer_contained_after_init (env : AnswerEnv)
    (question pdf_location : String) (hinit : env.init = .ok ()) :
    (∃ s, pdf_answerer env question pdf_location = .ok s)
    ∧ (∀ e, env.readBytes pdf_location = .error e →
        pdf_answerer env question pdf_location = .ok "")
    ∧ (∀ bs e, env.readBytes pdf_location = .ok bs → env.generate bs question = .error e →
        pdf_answerer env question pdf_location = .ok "") := by
  have hrederr : ∀ e, env.readBytes pdf_location = .error e →
      pdf_answerer env question pdf_location = .ok "" := by
    intro e hb
    unfold pdf_answerer
    rw [hinit, hb]
  have hred : ∀ bs, env.readBytes pdf_location = .ok bs →
      pdf_answerer env question pdf_location
        = (match env.generate bs question with
            | .error _ => Except.ok ""
            | .ok t => .ok t) := by
    intro bs hb
    unfold pdf_answerer
    rw [hinit, hb]
  refine ⟨?_, fun e he => hrederr e he, fun bs e hb hg => by rw [hred bs hb, hg]⟩
  cases hb : env.readBytes pdf_location with
  | error e => exact ⟨"", hrederr e hb⟩
  | ok bs =>
    cases hg : env.generate bs question with
    | error e => exact ⟨"", by rw [hred bs hb, hg]⟩
    | ok t => exact ⟨t, by rw [hred bs hb, hg]⟩

/-- C3 amended witness: with successful initialization and a failing
document read, the answerer returns the empty string. -/
theorem pdf_answerer_contained_after_init_witness :
    pdf_answerer answerReadFailEnv "What is the voter turnout?" "temp/report.pdf" = .ok "" :=
  (pdf_answerer_contained_after_init answerReadFailEnv "What is the voter turnout?"
    "temp/report.pdf" rfl).2.1 .ioError rfl

/-- C6: `split_pdf` keeps no page index outside the range of the source
document, preserves the caller-given order of the filtered selection (the
kept indices are a sublist of the request, not a re-sorted version), and
the new document consists exactly of the selected in-range pages in that
order. -/
theorem split_pdf_in_range_ordered {α : Type} (sourcePages : List α)
    (page_numbers : List Int) :
    (∀ p ∈ (split_pdf sourcePages page_numbers).1,
        0 ≤ p ∧ p < (sourcePages.length : Int))
    ∧ (split_pdf sourcePages page_numbers).1.Sublist page_numbers
    ∧ (split_pdf sourcePages page_numbers).2.length
        = (split_pdf sourcePages page_numbers).1.length
    ∧ ∀ i : Nat, (split_pdf sourcePages page_numbers).2[i]?
        = ((split_pdf sourcePages page_numbers).1[i]?).bind
            (fun p => sourcePages[p.toNat]?) := by
  have hmem : ∀ p ∈ (split_pdf sourcePages page_numbers).1,
      0 ≤ p ∧ p < (sourcePages.length : Int) := by
    intro p hp
    have := (List.mem_filter.mp hp).2
    exact of_decide_eq_true this
  have hsome : ∀ p ∈ (split_pdf sourcePages page_numbers).1,
      (sourcePages[p.toNat]?).isSome := by
    intro p hp
    obtain ⟨h0, hlt⟩ := hmem p hp
    have hn : p.toNat < sourcePages.length := by omega
    rw [List.getElem?_eq_getElem hn]
    rfl
  obtain ⟨hlen, hget⟩ :=
    filterMap_of_forall_isSome (fun p => sourcePages[p.toNat]?)
      (split_pdf sourcePages page_numbers).1 hsome
  exact ⟨hmem, List.filter_sublist page_numbers, hlen, hget⟩

/-- C6 witness: a concrete run showing order preservation and silent
dropping of the out-of-range index: on a 3-page source, the request
`[2, 0, 5]` keeps `[2, 0]` (not re-sorted) and the new document starts with
the third source page. -/
theorem split_pdf_in_range_ordered_witness :
    (split_pdf ["p1", "p2", "p3"] [2, 0, 5]).2[0]? = some "p3" := by
  have h := (split_pdf_in_range_ordered ["p1", "p2", "p3"] [2, 0, 5]).2.2.2 0
  rw [h]
  rfl

/-- C10: For every path whose extension is neither `.pdf` nor one of the
textract-supported set, `process_file` returns no text value (Python
`None`) — exactly the result it returns when extraction of a supported
format fails — so this interface cannot distinguish an unsupported format
from a failed extraction. -/
theorem process_file_unsupported_equals_failure (env : ExtractEnv) (s : String) :
    (pathSuffix s ≠ ".pdf" → pathSuffix s ∉ textractExts →
      process_file env (.path s) = .ok none)
    ∧ (∀ e, pathSuffix s = ".pdf" → env.openPdf s = .error e →
      process_file env (.path s) = .ok none)
    ∧ (∀ e, pathSuffix s ∈ textractExts → env.textractProcess s = .error e →
      process_file env (.path s) = .ok none) := by
  refine ⟨?_, ?_, ?_⟩
  · intro h1 h2
    simp only [process_file]
    rw [if_neg h1, if_neg h2]
  · intro e h1 hfail
    simp only [process_file]
    rw [if_pos h1]
    unfold read_pdf
    rw [hfail]
  · intro e h2 hfail
    have h1 : pathSuffix s ≠ ".pdf" := by
      intro hq
      rw [hq] at h2
      exact absurd h2 (by decide)
    simp only [process_file]
    rw [if_neg h1, if_pos h2, hfail]

/-- C10 witness: with always-failing extractors, an unsupported extension
(`.xyz`), a failing PDF extraction, and a failing textract extraction all
return the same `None`. -/
theorem process_file_unsupported_equals_failure_witness :
    process_file extractFailEnv (.path "a.xyz") = .ok none
    ∧ process_file extractFailEnv (.path "a.pdf") = .ok none
    ∧ process_file extractFailEnv (.path "a.txt") = .ok none :=
  ⟨(process_file_unsupported_equals_failure extractFailEnv "a.xyz").1
      (by decide) (by decide),
   (process_file_unsupported_equals_failure extractFailEnv "a.pdf").2.1
      .ioError (by decide) rfl,
   (process_file_unsupported_equals_failure extractFailEnv "a.txt").2.2
      .ioError (by decide) rfl⟩

/-- C4 counterexample: when the request to the provider itself fails (the
HTTP call raises, e.g. a connection error), the search operation does NOT
return an empty sequence — the exception propagates, because neither
`find_urls` nor `find_documents` contains any exception handling. -/
theorem find_urls_raises_on_request_failure :
    find_urls httpDown secrets0 "voter turnout" "c" 3 = .error .connectionError
    ∧ exceptOk (find_urls httpDown secrets0 "voter turnout" "c" 3) = false
    ∧ find_documents httpDown secrets0 "Provincetown MA 2024"
        "Local Election Voter Turnout" "c" ["pdf", "csv", "txt"] 5
        = .error .connectionError :=
  ⟨rfl, rfl, rfl⟩

/-- C4 amended: the search operations return an empty sequence (not an
error) when the provider responds with zero items — an `items` field that
is an empty list, or a response object with no `items` field at all, as in
an HTTP error body — but a failure of the request itself propagates as an
exception. -/
theorem search_empty_on_zero_items_error_on_transport :
    (∀ (secrets : Secrets) (query cx : String) (n : Nat)
        (fields : List (String × Json)),
      jlookup fields "items" = none ∨ jlookup fields "items" = some (.arr []) →
      find_urls (httpConst fields) secrets query cx n = .ok [])
    ∧ (∀ (secrets : Secrets) (query cx : String) (n : Nat) (e : PyExn),
      find_urls { get := fun _ => .error e } secrets query cx n = .error e)
    ∧ (∀ (secrets : Secrets) (topic query cx : String) (fts : List String) (n : Nat)
        (fields : List (String × Json)),
      jlookup fields "items" = none ∨ jlookup fields "items" = some (.arr []) →
      find_documents (httpConst fields) secrets topic query cx fts n = .ok [])
    ∧ (∀ (secrets : Secrets) (topic query cx : String) (fts : List String) (n : Nat)
        (e : PyExn),
      find_documents { get := fun _ => .error e } secrets topic query cx fts n
        = .error e) := by
  refine ⟨?_, fun _ _ _ _ _ => rfl, ?_, fun _ _ _ _ _ _ _ => rfl⟩
  · intro secrets query cx n fields h
    have hred : find_urls (httpConst fields) secrets query cx n
        = pyIterate ((jlookup fields "items").getD (.arr [])) >>= collectLinks := rfl
    rcases h with h | h <;> rw [hred, h] <;> rfl
  · intro secrets topic query cx fts n fields h
    have hred : find_documents (httpConst fields) secrets topic query cx fts n
        = pyIterate ((jlookup fields "items").getD (.arr [])) >>= collectLinks := rfl
    rcases h with h | h <;> rw [hred, h] <;> rfl

/-- C4 amended witness: a response body with no `items` field yields an
empty URL list from `find_urls`, a response with an empty `items` list
yields an empty URL list from `find_documents`. -/
theorem search_empty_on_zero_items_witness :
    find_urls (httpConst [("queries", Json.null)]) secrets0 "turnout" "c" 3 = .ok []
    ∧ find_documents (httpConst [("items", Json.arr [])]) secrets0 "Provincetown"
        "Voter Turnout" "c" ["pdf"] 5 = .ok [] :=
  ⟨(search_empty_on_zero_items_error_on_transport).1 secrets0 "turnout" "c" 3
      [("queries", Json.null)] (Or.inl rfl),
   (search_empty_on_zero_items_error_on_transport).2.2.1 secrets0 "Provincetown"
      "Voter Turnout" "c" ["pdf"] 5 [("items", Json.arr [])] (Or.inr rfl)⟩

/-- With a stubbed provider whose body is an object with an `items` list,
the search function reduces to the append loop over those items. -/
theorem find_urls_reduces_to_collectLinks (secrets : Secrets) (query cx : String)
    (n : Nat) (items : List Json) :
    find_urls (httpConst [("items", Json.arr items)]) secrets query cx n
      = collectLinks items := rfl

/-- C9 counterexample: an item without a `link` field is NOT skipped — the
subscription `item['link']` raises `KeyError`, the whole search call fails,
and the links of the remaining items are not returned. -/
theorem find_urls_keyError_on_missing_link :
    find_urls (httpConst [("items", Json.arr
        [Json.obj [("link", Json.str "https://a.com/x.pdf")],
         Json.obj [("title", Json.str "no link here")],
         Json.obj [("link", Json.str "https://b.com/y.pdf")]])])
      secrets0 "turnout" "c" 3 = .error .keyError
    ∧ exceptOk (find_urls (httpConst [("items", Json.arr
        [Json.obj [("link", Json.str "https://a.com/x.pdf")],
         Json.obj [("title", Json.str "no link here")],
         Json.obj [("link", Json.str "https://b.com/y.pdf")]])])
      secrets0 "turnout" "c" 3) = false :=
  ⟨rfl, rfl⟩

/-- C9 amended: the search parses the result list by extracting each item's
`link` field, in order; when every item has a `link` field the call returns
exactly those links, index-aligned with the items, but an item without a
`link` field makes the whole call fail with `KeyError` (it is not skipped,
and no links are returned). -/
theorem find_urls_link_field_extraction (secrets : Secrets) (query cx : String)
    (n : Nat) :
    (∀ items : List Json, (∀ i ∈ items, ∃ v, pySubscript i "link" = .ok v) →
      ∃ links, find_urls (httpConst [("items", Json.arr items)]) secrets query cx n
          = .ok links
        ∧ List.Forall₂ (fun i v => pySubscript i "link" = .ok v) items links)
    ∧ (∀ (pre post : List Json) (bad : Json),
        (∀ i ∈ pre, ∃ v, pySubscript i "link" = .ok v) →
        pySubscript bad "link" = .error .keyError →
        find_urls (httpConst [("items", Json.arr (pre ++ bad :: post))])
          secrets query cx n = .error .keyError) := by
  constructor
  · intro items h
    obtain ⟨links, hl, hf⟩ := collectLinks_ok items h
    exact ⟨links, by rw [find_urls_reduces_to_collectLinks, hl], hf⟩
  · intro pre post bad hpre hbad
    rw [find_urls_reduces_to_collectLinks]
    exact collectLinks_keyError post bad hbad pre hpre

/-- C9 amended witness: a single item without a `link` field makes
`find_urls` fail with `KeyError`. -/
theorem find_urls_link_field_extraction_witness :
    find_urls (httpConst [("items", Json.arr [Json.obj [("title", Json.str "t")]])])
      secrets0 "q" "c" 3 = .error .keyError :=
  (find_urls_link_field_extraction secrets0 "q" "c" 3).2 [] []
    (Json.obj [("title", Json.str "t")])
    (fun i hi => absurd hi (List.not_mem_nil i)) rfl

/-- C8 counterexample: for the valid absolute URL
`https://www.levistrauss.com:8080/` (scheme and host present, explicit
port), `generalize_url` returns the last two dot-separated labels of the
NETLOC, `levistrauss.com:8080`, which is not the last two labels of the
host `www.levistrauss.com` — so the claim "returns exactly the last two
dot-separated labels of the host" fails on URLs with a port. -/
theorem generalize_url_port_counterexample :
    generalize_url "https://www.levistrauss.com:8080/" = .ok "levistrauss.com:8080"
    ∧ splitNetloc (splitScheme "https://www.levistrauss.com:8080/").2
        = "www.levistrauss.com:8080"
    ∧ hostOfNetloc "www.levistrauss.com:8080" = "www.levistrauss.com"
    ∧ lastTwoLabels "www.levistrauss.com" = "levistrauss.com"
    ∧ ("levistrauss.com:8080" : String) ≠ "levistrauss.com" := by
  exact ⟨rfl, rfl, rfl, rfl, by decide⟩

/-- C8 amended: for every string whose parse has a non-empty scheme and a
non-empty network location, `generalize_url` returns the last two
dot-separated labels of the network location (which coincide with the last
two labels of the host whenever the network location carries no userinfo
and no port), and for every other string it fails with
`ValueError("Invalid URL")`; the function is a pure mapping of its input. -/
theorem generalize_url_netloc_behavior (url : String) :
    ((splitScheme url).1 ≠ "" → splitNetloc (splitScheme url).2 ≠ "" →
      generalize_url url = .ok (lastTwoLabels (splitNetloc (splitScheme url).2)))
    ∧ ((splitScheme url).1 = "" ∨ splitNetloc (splitScheme url).2 = "" →
      generalize_url url = .error (.valueError "Invalid URL"))
    ∧ ((splitScheme url).1 ≠ "" → splitNetloc (splitScheme url).2 ≠ "" →
      (∀ c ∈ (splitNetloc (splitScheme url).2).data, c ≠ '@' ∧ c ≠ ':') →
      generalize_url url
        = .ok (lastTwoLabels (hostOfNetloc (splitNetloc (splitScheme url).2)))) := by
  have hok : (splitScheme url).1 ≠ "" → splitNetloc (splitScheme url).2 ≠ "" →
      generalize_url url = .ok (lastTwoLabels (splitNetloc (splitScheme url).2)) := by
    intro h1 h2
    simp only [generalize_url]
    rw [if_pos ⟨h1, h2⟩]
  refine ⟨hok, ?_, ?_⟩
  · intro h
    simp only [generalize_url]
    rw [if_neg (fun hc => h.elim (fun ha => hc.1 ha) (fun hb => hc.2 hb))]
  · intro h1 h2 hno
    have hhost : hostOfNetloc (splitNetloc (splitScheme url).2)
        = splitNetloc (splitScheme url).2 := by
      simp only [hostOfNetloc]
      rw [splitOnChar_eq_self '@' _ (fun c hc => (hno c hc).1)]
      have hlast : ([(splitNetloc (splitScheme url).2).data]).getLastD ([] : List Char)
          = (splitNetloc (splitScheme url).2).data := rfl
      rw [hlast, splitOnChar_eq_self ':' _ (fun c hc => (hno c hc).2)]
      rfl
    rw [hhost]
    exact hok h1 h2

/-- C8 amended witness: a URL whose netloc is a bare host maps to the last
two labels of its host, and a string without a scheme is rejected. -/
theorem generalize_url_netloc_behavior_witness :
    generalize_url "https://www.levistrauss.com/" = .ok "levistrauss.com"
    ∧ generalize_url "no scheme here" = .error (.valueError "Invalid URL") := by
  constructor
  · have h := (generalize_url_netloc_behavior "https://www.levistrauss.com/").1
        (by decide) (by decide)
    rw [h]
    rfl
  · exact (generalize_url_netloc_behavior "no scheme here").2.1 (Or.inl rfl)

end VoterTurnout
